import Mathlib

/-!
Verification of the spin-rust-sdk executor core and its HTTP body adapters.

The development shallowly embeds:
* the run loop of `crates/executor/src/lib.rs` (`run`, `push_waker`, the
  `WAKERS` registry drain/rebuild step);
* the per-chunk write loop of `outgoing_body` in `src/http/executor.rs`;
* the poll function of `incoming_body` in `src/http/executor.rs`;
* the `Drop` implementations of the `Outgoing` and `Incoming` adapter structs;
* the eager-submit future of `outgoing_request_send`.

Host interactions (check-write, write, flush, read, poll) are modelled by
scripts of replies consumed in call order; each embedded operation returns the
trace of host calls it issued together with its outcome, so that properties
about which calls happen, in which order, and with which arguments can be
stated directly.
-/

namespace SpinSdk

/-- Decidable equality for `Except`, used so that concrete runs of the embedded
operations can be checked by `decide`. -/
instance {ε α : Type} [DecidableEq ε] [DecidableEq α] :
    DecidableEq (Except ε α) := fun a b =>
  match a, b with
  | .ok x, .ok y =>
    if h : x = y then .isTrue (h ▸ rfl)
    else .isFalse fun hh => h (Except.ok.inj hh)
  | .error x, .error y =>
    if h : x = y then .isTrue (h ▸ rfl)
    else .isFalse fun hh => h (Except.error.inj hh)
  | .ok _, .error _ => .isFalse fun hh => Except.noConfusion hh
  | .error _, .ok _ => .isFalse fun hh => Except.noConfusion hh

/-! ### Teardown of the body adapters (`Drop for Outgoing` / `Drop for Incoming`)

`Outgoing` stores `Option<(OutputStream, OutgoingBody)>`; its `Drop` takes the
pair out of the option, drops the stream and calls `OutgoingBody::finish(body,
None)`.  `Incoming` is identical up to calling `IncomingBody::finish(body)`.
Handles are opaque; we model them as numbers. -/

/-- Opaque writable/readable stream handle. -/
abbrev StreamH := Nat

/-- Opaque body handle paired with a stream handle. -/
abbrev BodyH := Nat

/-- Host calls issued during adapter teardown. -/
inductive TeardownEvent where
  | dropStream (s : StreamH)
  /-- `OutgoingBody::finish(body, None)` — finish with no trailers. -/
  | finishOutgoing (b : BodyH)
  /-- `IncomingBody::finish(body)`. -/
  | finishIncoming (b : BodyH)
deriving DecidableEq, Repr

/-- `struct Outgoing(Option<(OutputStream, OutgoingBody)>)`. -/
structure Outgoing where
  pair : Option (StreamH × BodyH)
deriving DecidableEq, Repr

/-- `impl Drop for Outgoing`: `if let Some((stream, body)) = self.0.take()
\x7b drop(stream); _ = OutgoingBody::finish(body, None); \x7d`.  Returns the
adapter state after the teardown attempt and the host calls it issued. -/
def Outgoing.dropRun : Outgoing → Outgoing × List TeardownEvent
  | ⟨some (s, b)⟩ => (⟨none⟩, [.dropStream s, .finishOutgoing b])
  | ⟨none⟩ => (⟨none⟩, [])

/-- `struct Incoming(Option<(InputStream, IncomingBody)>)`. -/
structure Incoming where
  pair : Option (StreamH × BodyH)
deriving DecidableEq, Repr

/-- `impl Drop for Incoming`: `if let Some((stream, body)) = self.0.take()
\x7b drop(stream); IncomingBody::finish(body); \x7d`. -/
def Incoming.dropRun : Incoming → Incoming × List TeardownEvent
  | ⟨some (s, b)⟩ => (⟨none⟩, [.dropStream s, .finishIncoming b])
  | ⟨none⟩ => (⟨none⟩, [])

/-- Number of body-finish calls in a teardown trace. -/
def finishCount (evs : List TeardownEvent) : Nat :=
  (evs.filter fun e =>
    match e with
    | .finishOutgoing _ => true
    | .finishIncoming _ => true
    | .dropStream _ => false).length

/-! ### The incoming body stream (`incoming_body` in `src/http/executor.rs`)

Each poll of the produced stream performs exactly one `stream.read(READ_SIZE)`
call (the pair is present until `Drop`); we model one poll as a function of
that read's result. A driver that keeps polling until end-of-stream consumes a
script of read results. -/

/-- Result of one host `read` call: `Ok(buffer)`, `Err(Closed)` or
`Err(LastOperationFailed(e))`, with the opaque error payload as a number. -/
inductive ReadResult where
  | ok (buf : List Nat)
  | closed
  | lastOperationFailed (code : Nat)
deriving DecidableEq, Repr

/-- An element of the produced `Stream<Item = Result<Vec<u8>, Error>>`. -/
inductive Item where
  | ok (buf : List Nat)
  | err (code : Nat)
deriving DecidableEq, Repr

/-- Result of one poll of the incoming stream. -/
inductive IncomingPoll where
  /-- `Poll::Pending`, after registering `stream.subscribe()` in the registry. -/
  | pendingSubscribed
  /-- `Poll::Ready(Some(item))`. -/
  | yieldItem (it : Item)
  /-- `Poll::Ready(None)` — end of the sequence. -/
  | eos
deriving DecidableEq, Repr

/-- One poll of the stream produced by `incoming_body`, as a function of the
read result: an empty `Ok` buffer registers a waker and suspends, a non-empty
one is yielded, `Closed` ends the sequence, `LastOperationFailed` yields an
error element (leaving the adapter state unchanged). -/
def incomingStep : ReadResult → IncomingPoll
  | .ok [] => .pendingSubscribed
  | .ok (b :: bs) => .yieldItem (.ok (b :: bs))
  | .closed => .eos
  | .lastOperationFailed e => .yieldItem (.err e)

/-- Drive the incoming stream with a script of read results, polling until the
stream reports end-of-sequence or the script runs out.  Every script entry is
one `read` call actually issued by the adapter.  Returns the yielded elements
and whether the sequence ended (`true`) or the script was exhausted first. -/
def incomingRun : List ReadResult → List Item × Bool
  | [] => ([], false)
  | r :: rest =>
    match incomingStep r with
    | .pendingSubscribed => incomingRun rest
    | .eos => ([], true)
    | .yieldItem it =>
      let (is, fin) := incomingRun rest
      (it :: is, fin)

/-- `true` for every element except an `Ok` with an empty buffer. -/
def itemOkNonempty : Item → Bool
  | .ok [] => false
  | .ok (_ :: _) => true
  | .err _ => true

/-! ### The run loop (`run` in `crates/executor/src/lib.rs`)

`WAKERS` holds `(Pollable, Waker)` pairs.  When the root future returns
`Poll::Pending`, `run` takes the whole vector (leaving it empty), asserts it is
non-empty, calls `io::poll::poll` on all pollables, marks the returned indices
ready, wakes the ready wakers and stores the not-ready pairs back.  Pollables
and wakers are opaque; we model them as numbers and the host's batched
readiness primitive as an oracle from the polled handle list to the ready
index list. -/

/-- Opaque wait handle (`io::poll::Pollable`). -/
abbrev Pollable := Nat

/-- Opaque wake signal (`std::task::Waker`). -/
abbrev Waker := Nat

/-- A registry entry pushed by `push_waker`. -/
abbrev Entry := Pollable × Waker

/-- `ready[index] = true` for one index returned by the host. -/
def setTrue (l : List Bool) (i : Nat) : List Bool := l.set i true

/-- `let mut ready = vec![false; n]; for index in poll(..) \x7b ready[index] =
true \x7d`. -/
def readyFlags (n : Nat) (idxs : List Nat) : List Bool :=
  idxs.foldl setTrue (List.replicate n false)

/-- What one `Poll::Pending` arm of the run loop did: the handles passed to the
host's batched readiness primitive, the entries whose wakers were fired, and
the registry contents after the iteration. -/
structure PendingOutcome where
  polled : List Pollable
  woken : List Entry
  registry : List Entry
deriving DecidableEq, Repr

/-- The `Poll::Pending` arm of the loop in `run`: take all wakers out of the
registry, assert the taken list is non-empty (`assert!(!wakers.is_empty())` —
modelled as an `Except.error`, Rust panics), call `io::poll::poll` on the
pollables, fire the wakers at the returned indices and store the rest back. -/
def runPending (pollHost : List Pollable → List Nat) (wakers : List Entry) :
    Except String PendingOutcome :=
  if wakers.isEmpty then
    Except.error "assertion failed: !wakers.is_empty()"
  else
    let pollables := wakers.map Prod.fst
    let flags := readyFlags wakers.length (pollHost pollables)
    let paired := flags.zip wakers
    Except.ok
      { polled := pollables
        woken := (paired.filter fun p => p.1).map Prod.snd
        registry := (paired.filter fun p => !p.1).map Prod.snd }

/-! ### The outgoing-send bridge (`outgoing_request_send`)

`outgoing_handler::handle(request, None)` is called when the bridge is
constructed — its result is captured by the returned `poll_fn` closure, and
polling never resubmits.  We model the handler as an oracle, the constructed
future as the stored submission result, and the host's non-blocking
`response.get()` peek as a second oracle. -/

/-- Opaque handle of a watchable in-flight response
(`FutureIncomingResponse`). -/
abbrev RespHandle := Nat

/-- Opaque successful response value (`IncomingResponse`). -/
abbrev Response := Nat

/-- Opaque `ErrorCode` payload. -/
abbrev ErrCode := Nat

/-- Opaque request value (`OutgoingRequest`). -/
abbrev Request := Nat

/-- The state captured by the future returned from `outgoing_request_send`:
`let response = outgoing_handler::handle(request, None)`. -/
structure SendFuture where
  submission : Except ErrCode RespHandle
deriving DecidableEq, Repr

/-- Result of one poll of the send future. -/
inductive SendPoll where
  /-- `Poll::Ready(result)`; no wait handle was registered by this poll. -/
  | readyRes (r : Except ErrCode Response)
  /-- `Poll::Pending`, after registering `response.subscribe()` — the result
  readiness wait handle of `h` — in the registry. -/
  | pendingSubscribed (h : RespHandle)
deriving DecidableEq, Repr

/-- Bridge construction: submit the request to the handler oracle now and
capture the result.  The submission happens here, not in the poll function. -/
def outgoingRequestSend (handler : Request → Except ErrCode RespHandle)
    (request : Request) : SendFuture :=
  ⟨handler request⟩

/-- One poll of the send future: a failed submission resolves with that error;
otherwise peek (`response.get()`, modelled by the oracle `get`) — a present
result resolves, an absent one registers the readiness wait handle and
suspends. -/
def sendFuturePoll (fut : SendFuture)
    (get : RespHandle → Option (Except ErrCode Response)) : SendPoll :=
  match fut.submission with
  | .ok h =>
    match get h with
    | some r => .readyRes r
    | none => .pendingSubscribed h
  | .error e => .readyRes (.error e)

/-! ### The output sink write loop (`outgoing_body` in `src/http/executor.rs`)

`outgoing_body` wraps the writable stream in a `sink::unfold` whose per-chunk
future is a `poll_fn` over the mutable state `offset : usize` and
`flushing : bool`.  Inside one poll the closure loops: `check_write`, then
depending on its result either suspend (capacity 0), write the next slice,
issue or complete a flush, or finish with success or error.  We model the host
stream by a script of typed replies consumed one per host call, and the loop
by structural recursion on the script, returning the trace of host calls and
the loop's outcome. -/

/-- `wasi::io::streams::StreamError`, with the `LastOperationFailed` payload
as a number. -/
inductive StreamErrorM where
  | closed
  | lastOperationFailed (code : Nat)
deriving DecidableEq, Repr

/-- One scripted host reply, tagged with the call it answers:
`check_write` yields `Ok(capacity)` or an error, `write` and `flush` yield
`Ok(())` or an error. -/
inductive Reply where
  | toCheckWrite (r : Except StreamErrorM Nat)
  | toWrite (r : Except StreamErrorM Unit)
  | toFlush (r : Except StreamErrorM Unit)
deriving DecidableEq, Repr

/-- A host call issued by the write loop, with the reply it received and, for
`write`, the exact bytes passed (`&chunk[offset..][..count]`). -/
inductive Event where
  | checkWriteCall (r : Except StreamErrorM Nat)
  | writeCall (bytes : List Nat)
  | flushCall (r : Except StreamErrorM Unit)
  /-- `spin_executor::push_waker(stream.subscribe(), ..)`. -/
  | subscribeCall
deriving DecidableEq, Repr

/-- Outcome of one poll of the per-chunk future. -/
inductive Outcome where
  /-- `Poll::Pending`, with the `offset`/`flushing` state carried to the next
  poll. -/
  | pending (offset : Nat) (flushing : Bool)
  /-- `Poll::Ready(result)` — the chunk send completed with this result. -/
  | ready (r : Except StreamErrorM Unit)
  /-- The script ended, or its next reply answers a different call than the
  one the loop issues: the run is not modelled further. -/
  | stuck
deriving DecidableEq, Repr

/-- The `loop` of the per-chunk `poll_fn` in `outgoing_body`, driven by a
reply script.  `chunk` is the chunk being sent, `offset` and `flushing` are
the closure's mutable state.  Mirrors the source arm for arm:
capacity 0 suspends after subscribing; nonzero capacity either completes
(offset at end, flushing), issues a flush (offset at end, not flushing) or
writes `min(capacity, remaining)` bytes; `Closed` from `check_write` is
success at offset = length and an error otherwise; any other `check_write`
error, and any `write`/`flush` error other than `Closed` from `flush`,
finishes with that error. -/
def sendLoop (chunk : List Nat) :
    Nat → Bool → List Reply → List Event × Outcome
  | _, _, [] => ([], .stuck)
  | offset, flushing, Reply.toCheckWrite cr :: rest =>
    match cr with
    | .ok 0 => ([.checkWriteCall cr, .subscribeCall], .pending offset flushing)
    | .ok (k + 1) =>
      if offset = chunk.length then
        if flushing then ([.checkWriteCall cr], .ready (.ok ()))
        else
          match rest with
          | Reply.toFlush fr :: rest2 =>
            match fr with
            | .ok () =>
              let (evs, out) := sendLoop chunk offset true rest2
              (.checkWriteCall cr :: .flushCall fr :: evs, out)
            | .error .closed =>
              ([.checkWriteCall cr, .flushCall fr], .ready (.ok ()))
            | .error e =>
              ([.checkWriteCall cr, .flushCall fr], .ready (.error e))
          | _ => ([.checkWriteCall cr], .stuck)
      else
        let count := min (k + 1) (chunk.length - offset)
        let slice := (chunk.drop offset).take count
        match rest with
        | Reply.toWrite wr :: rest2 =>
          match wr with
          | .ok () =>
            let (evs, out) := sendLoop chunk (offset + count) flushing rest2
            (.checkWriteCall cr :: .writeCall slice :: evs, out)
          | .error e =>
            ([.checkWriteCall cr, .writeCall slice], .ready (.error e))
        | _ => ([.checkWriteCall cr], .stuck)
    | .error .closed =>
      if offset = chunk.length then ([.checkWriteCall cr], .ready (.ok ()))
      else ([.checkWriteCall cr], .ready (.error .closed))
    | .error e => ([.checkWriteCall cr], .ready (.error e))
  | _, _, _ :: _ => ([], .stuck)

/-- The byte slices passed to `write`, in call order. -/
def writesOf (evs : List Event) : List (List Nat) :=
  evs.filterMap fun e =>
    match e with
    | .writeCall bs => some bs
    | _ => none

/-- All bytes passed to `write`, concatenated in call order. -/
def writtenBytes (evs : List Event) : List Nat :=
  (writesOf evs).flatten

/-- `true` when the trace contains no `write` call. -/
def noWrites (evs : List Event) : Bool :=
  evs.all fun e =>
    match e with
    | .writeCall _ => false
    | _ => true

/-- Checks, scanning a trace while tracking the offset into a chunk of length
`chunkLen`, that every `write` call immediately follows a `check_write` that
reported nonzero capacity `k`, and passes exactly `min k (chunkLen - offset)`
bytes — in particular never more than the last reported capacity. -/
def writesCapOk (chunkLen : Nat) : Nat → List Event → Bool
  | _, [] => true
  | off, Event.checkWriteCall (.ok (k + 1)) :: Event.writeCall bs :: rest =>
    (bs.length == min (k + 1) (chunkLen - off)) &&
      writesCapOk chunkLen (off + bs.length) rest
  | _, Event.writeCall _ :: _ => false
  | off, _ :: rest => writesCapOk chunkLen off rest

/-! ### Reduction equations for the write loop

One lemma per arm of `sendLoop`, so that later proofs can rewrite a run of the
loop step by step. -/

lemma sendLoop_nil (chunk : List Nat) (o : Nat) (f : Bool) :
    sendLoop chunk o f [] = ([], .stuck) := rfl

lemma sendLoop_check_zero (chunk : List Nat) (o : Nat) (f : Bool) (rest : List Reply) :
    sendLoop chunk o f (Reply.toCheckWrite (.ok 0) :: rest) =
      ([.checkWriteCall (.ok 0), .subscribeCall], .pending o f) := rfl

lemma sendLoop_end_flushing (chunk : List Nat) (k : Nat) (rest : List Reply) :
    sendLoop chunk chunk.length true (Reply.toCheckWrite (.ok (k + 1)) :: rest) =
      ([.checkWriteCall (.ok (k + 1))], .ready (.ok ())) := by
  rw [sendLoop.eq_def]; simp

lemma sendLoop_end_flush_ok (chunk : List Nat) (k : Nat) (rest2 : List Reply) :
    sendLoop chunk chunk.length false
        (Reply.toCheckWrite (.ok (k + 1)) :: Reply.toFlush (.ok ()) :: rest2) =
      (Event.checkWriteCall (.ok (k + 1)) :: Event.flushCall (.ok ()) ::
        (sendLoop chunk chunk.length true rest2).1,
       (sendLoop chunk chunk.length true rest2).2) := by
  rw [sendLoop.eq_def]; simp

lemma sendLoop_end_flush_closed (chunk : List Nat) (k : Nat) (rest2 : List Reply) :
    sendLoop chunk chunk.length false
        (Reply.toCheckWrite (.ok (k + 1)) :: Reply.toFlush (.error .closed) :: rest2) =
      ([.checkWriteCall (.ok (k + 1)), .flushCall (.error .closed)], .ready (.ok ())) := by
  rw [sendLoop.eq_def]; simp

lemma sendLoop_end_flush_failed (chunk : List Nat) (k c : Nat) (rest2 : List Reply) :
    sendLoop chunk chunk.length false
        (Reply.toCheckWrite (.ok (k + 1)) ::
          Reply.toFlush (.error (.lastOperationFailed c)) :: rest2) =
      ([.checkWriteCall (.ok (k + 1)), .flushCall (.error (.lastOperationFailed c))],
       .ready (.error (.lastOperationFailed c))) := by
  rw [sendLoop.eq_def]; simp

lemma sendLoop_write_ok (chunk : List Nat) (o : Nat) (f : Bool) (k : Nat)
    (ho : o ≠ chunk.length) (rest2 : List Reply) :
    sendLoop chunk o f
        (Reply.toCheckWrite (.ok (k + 1)) :: Reply.toWrite (.ok ()) :: rest2) =
      (Event.checkWriteCall (.ok (k + 1)) ::
        Event.writeCall ((chunk.drop o).take ((k + 1) ⊓ (chunk.length - o))) ::
        (sendLoop chunk (o + (k + 1) ⊓ (chunk.length - o)) f rest2).1,
       (sendLoop chunk (o + (k + 1) ⊓ (chunk.length - o)) f rest2).2) := by
  rw [sendLoop.eq_def]; simp [ho]

lemma sendLoop_write_err (chunk : List Nat) (o : Nat) (f : Bool) (k : Nat)
    (ho : o ≠ chunk.length) (e : StreamErrorM) (rest2 : List Reply) :
    sendLoop chunk o f
        (Reply.toCheckWrite (.ok (k + 1)) :: Reply.toWrite (.error e) :: rest2) =
      ([.checkWriteCall (.ok (k + 1)),
        .writeCall ((chunk.drop o).take ((k + 1) ⊓ (chunk.length - o)))],
       .ready (.error e)) := by
  rw [sendLoop.eq_def]; simp [ho]

lemma sendLoop_check_closed_end (chunk : List Nat) (f : Bool) (rest : List Reply) :
    sendLoop chunk chunk.length f (Reply.toCheckWrite (.error .closed) :: rest) =
      ([.checkWriteCall (.error .closed)], .ready (.ok ())) := by
  rw [sendLoop.eq_def]; simp

lemma sendLoop_check_closed_early (chunk : List Nat) (o : Nat) (f : Bool)
    (ho : o ≠ chunk.length) (rest : List Reply) :
    sendLoop chunk o f (Reply.toCheckWrite (.error .closed) :: rest) =
      ([.checkWriteCall (.error .closed)], .ready (.error .closed)) := by
  rw [sendLoop.eq_def]; simp [ho]

lemma sendLoop_check_failed (chunk : List Nat) (o : Nat) (f : Bool) (c : Nat)
    (rest : List Reply) :
    sendLoop chunk o f
        (Reply.toCheckWrite (.error (.lastOperationFailed c)) :: rest) =
      ([.checkWriteCall (.error (.lastOperationFailed c))],
       .ready (.error (.lastOperationFailed c))) := by
  rw [sendLoop.eq_def]

lemma sendLoop_end_noflush_stuck (chunk : List Nat) (k : Nat) (rest : List Reply)
    (hrest : ∀ fr rest2, rest ≠ Reply.toFlush fr :: rest2) :
    sendLoop chunk chunk.length false (Reply.toCheckWrite (.ok (k + 1)) :: rest) =
      ([.checkWriteCall (.ok (k + 1))], .stuck) := by
  rw [sendLoop.eq_def]
  match rest with
  | [] => simp
  | Reply.toCheckWrite r :: rest2 => simp
  | Reply.toWrite r :: rest2 => simp
  | Reply.toFlush r :: rest2 => exact absurd rfl (hrest r rest2)

lemma sendLoop_write_stuck (chunk : List Nat) (o : Nat) (f : Bool) (k : Nat)
    (ho : o ≠ chunk.length) (rest : List Reply)
    (hrest : ∀ wr rest2, rest ≠ Reply.toWrite wr :: rest2) :
    sendLoop chunk o f (Reply.toCheckWrite (.ok (k + 1)) :: rest) =
      ([.checkWriteCall (.ok (k + 1))], .stuck) := by
  rw [sendLoop.eq_def]
  match rest with
  | [] => simp [ho]
  | Reply.toCheckWrite r :: rest2 => simp [ho]
  | Reply.toFlush r :: rest2 => simp [ho]
  | Reply.toWrite r :: rest2 => exact absurd rfl (hrest r rest2)

lemma sendLoop_mismatch (chunk : List Nat) (o : Nat) (f : Bool) (head : Reply)
    (tail : List Reply) (hhead : ∀ cr, head ≠ Reply.toCheckWrite cr) :
    sendLoop chunk o f (head :: tail) = ([], .stuck) := by
  rw [sendLoop.eq_def]
  match head with
  | Reply.toCheckWrite r => exact absurd rfl (hhead r)
  | Reply.toWrite r => simp
  | Reply.toFlush r => simp

/-! ### Helper lemmas about write traces -/

@[simp]
lemma writtenBytes_nil : writtenBytes [] = [] := rfl

@[simp]
lemma writtenBytes_cons_check (r : Except StreamErrorM Nat) (evs : List Event) :
    writtenBytes (Event.checkWriteCall r :: evs) = writtenBytes evs := rfl

@[simp]
lemma writtenBytes_cons_flush (r : Except StreamErrorM Unit) (evs : List Event) :
    writtenBytes (Event.flushCall r :: evs) = writtenBytes evs := rfl

@[simp]
lemma writtenBytes_cons_subscribe (evs : List Event) :
    writtenBytes (Event.subscribeCall :: evs) = writtenBytes evs := rfl

@[simp]
lemma writtenBytes_cons_write (bs : List Nat) (evs : List Event) :
    writtenBytes (Event.writeCall bs :: evs) = bs ++ writtenBytes evs := rfl

lemma sendLoop_writtenBytes (chunk : List Nat) (offset : Nat) (flushing : Bool)
    (script : List Reply) :
    offset ≤ chunk.length →
    (sendLoop chunk offset flushing script).2 = .ready (.ok ()) →
    writtenBytes (sendLoop chunk offset flushing script).1 = chunk.drop offset := by
  induction offset, flushing, script using sendLoop.induct chunk with
  | case1 o f => intro _ h; rw [sendLoop_nil] at h; simp at h
  | case2 o f rest => intro _ h; rw [sendLoop_check_zero] at h; simp at h
  | case3 rest k => intro _ _; rw [sendLoop_end_flushing]; simp [List.drop_length]
  | case4 f k hf rest2 evs out heq ih =>
    have hfeq : f = false := by simpa using hf
    subst hfeq
    intro _ h
    rw [sendLoop_end_flush_ok] at h ⊢
    simpa [List.drop_length] using ih le_rfl h
  | case5 f k hf rest2 =>
    have hfeq : f = false := by simpa using hf
    subst hfeq
    intro _ _
    rw [sendLoop_end_flush_closed]
    simp [List.drop_length]
  | case6 f k hf rest2 e he =>
    have hfeq : f = false := by simpa using hf
    subst hfeq
    intro _ h
    match e, he with
    | .closed, he => exact absurd rfl he
    | .lastOperationFailed c, _ =>
      rw [sendLoop_end_flush_failed] at h; simp at h
  | case7 f rest k hf hrest =>
    have hfeq : f = false := by simpa using hf
    subst hfeq
    intro _ h
    rw [sendLoop_end_noflush_stuck chunk k rest hrest] at h
    simp at h
  | case8 o f k ho count rest2 evs out heq ih =>
    intro hle h
    have hlt : o < chunk.length := lt_of_le_of_ne hle ho
    rw [sendLoop_write_ok chunk o f k ho] at h ⊢
    have hle2 : o + (k + 1) ⊓ (chunk.length - o) ≤ chunk.length := by
      have := Nat.min_le_right (k + 1) (chunk.length - o); omega
    have hrec := ih hle2 h
    simp only [writtenBytes_cons_check, writtenBytes_cons_write, hrec]
    rw [← List.drop_drop, List.take_append_drop]
  | case9 o f k ho rest2 e =>
    intro _ h
    rw [sendLoop_write_err chunk o f k ho] at h; simp at h
  | case10 o f rest k ho hrest =>
    intro _ h
    rw [sendLoop_write_stuck chunk o f k ho rest hrest] at h; simp at h
  | case11 f rest => intro _ _; rw [sendLoop_check_closed_end]; simp [List.drop_length]
  | case12 o f rest ho =>
    intro _ h
    rw [sendLoop_check_closed_early chunk o f ho] at h; simp at h
  | case13 o f rest e he =>
    intro _ h
    match e, he with
    | .closed, he => exact absurd rfl he
    | .lastOperationFailed c, _ =>
      rw [sendLoop_check_failed] at h; simp at h
  | case14 o f head tail hhead =>
    intro _ h
    rw [sendLoop_mismatch chunk o f head tail hhead] at h; simp at h

lemma capOk_nil (L off : Nat) : writesCapOk L off [] = true := rfl

lemma capOk_check_nil (L off : Nat) (r : Except StreamErrorM Nat) :
    writesCapOk L off [Event.checkWriteCall r] = true := by
  cases r with
  | ok v => cases v <;> rfl
  | error e => rfl

lemma capOk_check_flush (L off : Nat) (r : Except StreamErrorM Nat)
    (fr : Except StreamErrorM Unit) (evs : List Event) :
    writesCapOk L off (Event.checkWriteCall r :: Event.flushCall fr :: evs) =
      writesCapOk L off evs := by
  cases r with
  | ok v => cases v <;> rfl
  | error e => rfl

lemma capOk_check_subscribe (L off : Nat) (r : Except StreamErrorM Nat)
    (evs : List Event) :
    writesCapOk L off (Event.checkWriteCall r :: Event.subscribeCall :: evs) =
      writesCapOk L off evs := by
  cases r with
  | ok v => cases v <;> rfl
  | error e => rfl

lemma capOk_check_check (L off : Nat) (r r2 : Except StreamErrorM Nat)
    (evs : List Event) :
    writesCapOk L off
        (Event.checkWriteCall r :: Event.checkWriteCall r2 :: evs) =
      writesCapOk L off (Event.checkWriteCall r2 :: evs) := by
  cases r with
  | ok v => cases v <;> rfl
  | error e => rfl

lemma capOk_check_write (L off k : Nat) (bs : List Nat) (evs : List Event) :
    writesCapOk L off
        (Event.checkWriteCall (.ok (k + 1)) :: Event.writeCall bs :: evs) =
      ((bs.length == (k + 1) ⊓ (L - off)) &&
        writesCapOk L (off + bs.length) evs) := rfl

/-! ### Invariants of the write loop -/

lemma sendLoop_capOk (chunk : List Nat) (offset : Nat) (flushing : Bool)
    (script : List Reply) :
    offset ≤ chunk.length →
    writesCapOk chunk.length offset (sendLoop chunk offset flushing script).1 = true := by
  induction offset, flushing, script using sendLoop.induct chunk with
  | case1 o f => intro _; rw [sendLoop_nil]; exact capOk_nil _ _
  | case2 o f rest =>
    intro _; rw [sendLoop_check_zero, capOk_check_subscribe]; exact capOk_nil _ _
  | case3 rest k => intro _; rw [sendLoop_end_flushing]; exact capOk_check_nil _ _ _
  | case4 f k hf rest2 evs out heq ih =>
    have hfeq : f = false := by simpa using hf
    subst hfeq
    intro _
    rw [sendLoop_end_flush_ok, capOk_check_flush]
    exact ih le_rfl
  | case5 f k hf rest2 =>
    have hfeq : f = false := by simpa using hf
    subst hfeq
    intro _
    rw [sendLoop_end_flush_closed, capOk_check_flush]
    exact capOk_nil _ _
  | case6 f k hf rest2 e he =>
    have hfeq : f = false := by simpa using hf
    subst hfeq
    intro _
    match e, he with
    | .closed, he => exact absurd rfl he
    | .lastOperationFailed c, _ =>
      rw [sendLoop_end_flush_failed, capOk_check_flush]
      exact capOk_nil _ _
  | case7 f rest k hf hrest =>
    have hfeq : f = false := by simpa using hf
    subst hfeq
    intro _
    rw [sendLoop_end_noflush_stuck chunk k rest hrest]
    exact capOk_check_nil _ _ _
  | case8 o f k ho count rest2 evs out heq ih =>
    intro hle
    rw [sendLoop_write_ok chunk o f k ho]
    have hslice :
        ((chunk.drop o).take ((k + 1) ⊓ (chunk.length - o))).length =
          (k + 1) ⊓ (chunk.length - o) := by
      simp [List.length_take, List.length_drop]
    rw [capOk_check_write, hslice]
    have hle2 : o + (k + 1) ⊓ (chunk.length - o) ≤ chunk.length := by
      have := Nat.min_le_right (k + 1) (chunk.length - o); omega
    simp [ih hle2]
  | case9 o f k ho rest2 e =>
    intro hle
    rw [sendLoop_write_err chunk o f k ho]
    have hslice :
        ((chunk.drop o).take ((k + 1) ⊓ (chunk.length - o))).length =
          (k + 1) ⊓ (chunk.length - o) := by
      simp [List.length_take, List.length_drop]
    rw [capOk_check_write, hslice]
    simp [capOk_nil]
  | case10 o f rest k ho hrest =>
    intro _
    rw [sendLoop_write_stuck chunk o f k ho rest hrest]
    exact capOk_check_nil _ _ _
  | case11 f rest => intro _; rw [sendLoop_check_closed_end]; exact capOk_check_nil _ _ _
  | case12 o f rest ho =>
    intro _
    rw [sendLoop_check_closed_early chunk o f ho]
    exact capOk_check_nil _ _ _
  | case13 o f rest e he =>
    intro _
    match e, he with
    | .closed, he => exact absurd rfl he
    | .lastOperationFailed c, _ =>
      rw [sendLoop_check_failed]
      exact capOk_check_nil _ _ _
  | case14 o f head tail hhead =>
    intro _
    rw [sendLoop_mismatch chunk o f head tail hhead]
    exact capOk_nil _ _

lemma sendLoop_noWrites (chunk : List Nat) (offset : Nat) (flushing : Bool)
    (script : List Reply) :
    offset = chunk.length →
    noWrites (sendLoop chunk offset flushing script).1 = true := by
  induction offset, flushing, script using sendLoop.induct chunk with
  | case1 o f => intro _; rw [sendLoop_nil]; rfl
  | case2 o f rest => intro _; rw [sendLoop_check_zero]; rfl
  | case3 rest k => intro _; rw [sendLoop_end_flushing]; rfl
  | case4 f k hf rest2 evs out heq ih =>
    have hfeq : f = false := by simpa using hf
    subst hfeq
    intro _
    rw [sendLoop_end_flush_ok]
    simpa [noWrites] using ih rfl
  | case5 f k hf rest2 =>
    have hfeq : f = false := by simpa using hf
    subst hfeq
    intro _
    rw [sendLoop_end_flush_closed]; rfl
  | case6 f k hf rest2 e he =>
    have hfeq : f = false := by simpa using hf
    subst hfeq
    intro _
    match e, he with
    | .closed, he => exact absurd rfl he
    | .lastOperationFailed c, _ => rw [sendLoop_end_flush_failed]; rfl
  | case7 f rest k hf hrest =>
    have hfeq : f = false := by simpa using hf
    subst hfeq
    intro _
    rw [sendLoop_end_noflush_stuck chunk k rest hrest]; rfl
  | case8 o f k ho count rest2 evs out heq ih => intro h; exact absurd h ho
  | case9 o f k ho rest2 e => intro h; exact absurd h ho
  | case10 o f rest k ho hrest => intro h; exact absurd h ho
  | case11 f rest => intro _; rw [sendLoop_check_closed_end]; rfl
  | case12 o f rest ho => intro h; exact absurd h ho
  | case13 o f rest e he =>
    intro _
    match e, he with
    | .closed, he => exact absurd rfl he
    | .lastOperationFailed c, _ => rw [sendLoop_check_failed]; rfl
  | case14 o f head tail hhead =>
    intro _
    rw [sendLoop_mismatch chunk o f head tail hhead]; rfl

/-! ### Run-loop registry lemmas -/

lemma set_map_range (n a : Nat) (f : Nat → Bool) (b : Bool) (_ha : a < n) :
    ((List.range n).map f).set a b =
      (List.range n).map fun i => if i = a then b else f i := by
  apply List.ext_getElem
  · simp
  · intro i h1 h2
    simp only [List.getElem_set, List.getElem_map, List.getElem_range]
    by_cases hia : a = i
    · simp [hia]
    · rw [if_neg hia, if_neg fun h => hia (h.symm)]

lemma foldl_setTrue_map_range (n : Nat) (idxs : List Nat) :
    ∀ f : Nat → Bool, (∀ i ∈ idxs, i < n) →
      idxs.foldl setTrue ((List.range n).map f) =
        (List.range n).map fun i => f i || idxs.contains i := by
  induction idxs with
  | nil => intro f _; simp
  | cons a idxs ih =>
    intro f h
    have ha : a < n := h a (List.mem_cons_self a idxs)
    have h2 : ∀ i ∈ idxs, i < n := fun i hi => h i (List.mem_cons_of_mem a hi)
    rw [List.foldl_cons]
    show List.foldl setTrue (((List.range n).map f).set a true) idxs = _
    rw [set_map_range n a f true ha, ih _ h2]
    apply List.map_congr_left
    intro i hi
    by_cases hia : i = a
    · simp [hia, List.contains_cons]
    · simp [hia, List.contains_cons]

lemma readyFlags_eq (n : Nat) (idxs : List Nat) (h : ∀ i ∈ idxs, i < n) :
    readyFlags n idxs = (List.range n).map fun i => idxs.contains i := by
  have hrep : (List.replicate n false) = (List.range n).map fun _ => false := by
    apply List.ext_getElem <;> simp
  rw [readyFlags, hrep, foldl_setTrue_map_range n idxs _ h]
  simp

lemma flags_zip_enum (wakers : List Entry) (idxs : List Nat)
    (h : ∀ i ∈ idxs, i < wakers.length) :
    (readyFlags wakers.length idxs).zip wakers =
      wakers.enum.map fun p => (idxs.contains p.1, p.2) := by
  rw [readyFlags_eq _ _ h, List.zip_map_left, List.enum_eq_zip_range]
  apply List.map_congr_left
  intro p _
  rfl

lemma length_filter_add_not {α : Type} (p : α → Bool) (l : List α) :
    (l.filter p).length + (l.filter fun a => !p a).length = l.length := by
  induction l with
  | nil => rfl
  | cons a l ih =>
    by_cases h : p a = true
    · simp [List.filter_cons, h, Nat.succ_add, ih]
    · simp only [Bool.not_eq_true] at h
      simp [List.filter_cons, h, ih]
      omega

lemma runPending_ok (pollHost : List Pollable → List Nat) (wakers : List Entry)
    (hne : wakers ≠ [])
    (hb : ∀ i ∈ pollHost (wakers.map Prod.fst), i < wakers.length) :
    runPending pollHost wakers = Except.ok
      { polled := wakers.map Prod.fst
        woken := (wakers.enum.filter fun p =>
            (pollHost (wakers.map Prod.fst)).contains p.1).map Prod.snd
        registry := (wakers.enum.filter fun p =>
            !(pollHost (wakers.map Prod.fst)).contains p.1).map Prod.snd } := by
  rw [runPending]
  rw [if_neg (by simpa [List.isEmpty_iff] using hne)]
  simp only [flags_zip_enum wakers _ hb, List.filter_map, List.map_map]
  congr 1

/-! ### Incoming stream lemmas -/

lemma incomingRun_all_nonempty (script : List ReadResult) :
    ((incomingRun script).1.all itemOkNonempty) = true := by
  induction script with
  | nil => rfl
  | cons r rest ih =>
    cases r with
    | ok buf =>
      cases buf with
      | nil => simpa [incomingRun, incomingStep] using ih
      | cons b bs => simpa [incomingRun, incomingStep, itemOkNonempty] using ih
    | closed => simp [incomingRun, incomingStep]
    | lastOperationFailed e =>
      simpa [incomingRun, incomingStep, itemOkNonempty] using ih


/-! ## Claim theorems -/

/-- C1: the body-finish operation runs exactly once on every teardown path:
the first teardown moves the (stream, body) pair out of the `Option` storage,
drops the stream and finishes the body; a second teardown finds the storage
empty and issues no host call, so a double teardown still finishes exactly
once.  Both the outgoing and the incoming adapter behave this way. -/
theorem body_finish_exactly_once (s : StreamH) (b : BodyH) :
    Outgoing.dropRun ⟨some (s, b)⟩ =
      (⟨none⟩, [.dropStream s, .finishOutgoing b]) ∧
    Outgoing.dropRun ⟨none⟩ = (⟨none⟩, []) ∧
    finishCount ((Outgoing.dropRun ⟨some (s, b)⟩).2 ++
      (Outgoing.dropRun (Outgoing.dropRun ⟨some (s, b)⟩).1).2) = 1 ∧
    Incoming.dropRun ⟨some (s, b)⟩ =
      (⟨none⟩, [.dropStream s, .finishIncoming b]) ∧
    Incoming.dropRun ⟨none⟩ = (⟨none⟩, []) ∧
    finishCount ((Incoming.dropRun ⟨some (s, b)⟩).2 ++
      (Incoming.dropRun (Incoming.dropRun ⟨some (s, b)⟩).1).2) = 1 :=
  ⟨rfl, rfl, rfl, rfl, rfl, rfl⟩

/-- C2: on a not-ready iteration with a non-empty registry and in-range ready
positions, the run loop polls exactly the registered wait handles, fires the
wake signals of exactly the entries whose positions the host returned, and
re-inserts exactly the remaining entries unchanged; the woken and re-inserted
entries together account for every taken entry. -/
theorem run_pending_partition (pollHost : List Pollable → List Nat)
    (wakers : List Entry) (hne : wakers ≠ [])
    (hb : ∀ i ∈ pollHost (wakers.map Prod.fst), i < wakers.length) :
    runPending pollHost wakers = Except.ok
      { polled := wakers.map Prod.fst
        woken := (wakers.enum.filter fun p =>
            (pollHost (wakers.map Prod.fst)).contains p.1).map Prod.snd
        registry := (wakers.enum.filter fun p =>
            !(pollHost (wakers.map Prod.fst)).contains p.1).map Prod.snd } ∧
    ((wakers.enum.filter fun p =>
        (pollHost (wakers.map Prod.fst)).contains p.1).map Prod.snd).length +
      ((wakers.enum.filter fun p =>
        !(pollHost (wakers.map Prod.fst)).contains p.1).map Prod.snd).length =
      wakers.length := by
  refine ⟨runPending_ok pollHost wakers hne hb, ?_⟩
  rw [List.length_map, List.length_map,
    length_filter_add_not (fun p =>
      (pollHost (wakers.map Prod.fst)).contains p.1) wakers.enum,
    List.enum_length]

/-- Witness for C2 at a concrete registry and host answer: two entries, the
host reports position 0 ready, so entry `(1, 10)` is woken and entry
`(2, 20)` is re-registered. -/
theorem run_pending_partition_witness :
    runPending (fun _ => [0]) [(1, 10), (2, 20)] =
      Except.ok { polled := [1, 2], woken := [(1, 10)], registry := [(2, 20)] } :=
  (run_pending_partition (fun _ => [0]) [(1, 10), (2, 20)]
    (by decide) (by decide)).1.trans (by decide)

/-- C3: a future that returns not-ready while the registry is empty makes the
run loop fail the non-emptiness assertion (a Rust panic, modelled as
`Except.error`); the result does not depend on the host readiness oracle at
all, so the readiness primitive is never invoked and the condition is never
treated as recoverable. -/
theorem run_empty_registry_fatal (f g : List Pollable → List Nat) :
    runPending f [] = Except.error "assertion failed: !wakers.is_empty()" ∧
    runPending f [] = runPending g [] :=
  ⟨rfl, rfl⟩

/-- C4: whenever a chunk send completes successfully, the bytes passed to the
host `write` calls, concatenated in call order, are exactly the chunk — they
sum to its length, cover contiguous slices in order — and every `write`
immediately follows a capacity report of some `k > 0` and carries exactly
`min k (remaining bytes)` bytes, hence never more than the last reported
capacity. -/
theorem send_chunk_writes_exact (chunk : List Nat) (script : List Reply)
    (h : (sendLoop chunk 0 false script).2 = Outcome.ready (.ok ())) :
    writtenBytes (sendLoop chunk 0 false script).1 = chunk ∧
    writesCapOk chunk.length 0 (sendLoop chunk 0 false script).1 = true := by
  constructor
  · simpa using sendLoop_writtenBytes chunk 0 false script (Nat.zero_le _) h
  · exact sendLoop_capOk chunk 0 false script (Nat.zero_le _)

/-- Witness for C4: the chunk `[1, 2, 3]` sent against capacities 2, 5, 5, 1
is written as `[1, 2]` then `[3]`, flushed, and completed. -/
theorem send_chunk_writes_exact_witness :
    (sendLoop [1, 2, 3] 0 false
        [.toCheckWrite (.ok 2), .toWrite (.ok ()), .toCheckWrite (.ok 5),
         .toWrite (.ok ()), .toCheckWrite (.ok 5), .toFlush (.ok ()),
         .toCheckWrite (.ok 1)]).2 = Outcome.ready (.ok ()) ∧
    (writtenBytes (sendLoop [1, 2, 3] 0 false
        [.toCheckWrite (.ok 2), .toWrite (.ok ()), .toCheckWrite (.ok 5),
         .toWrite (.ok ()), .toCheckWrite (.ok 5), .toFlush (.ok ()),
         .toCheckWrite (.ok 1)]).1 = [1, 2, 3] ∧
      writesCapOk 3 0 (sendLoop [1, 2, 3] 0 false
        [.toCheckWrite (.ok 2), .toWrite (.ok ()), .toCheckWrite (.ok 5),
         .toWrite (.ok ()), .toCheckWrite (.ok 5), .toFlush (.ok ()),
         .toCheckWrite (.ok 1)]).1 = true) :=
  ⟨by decide, send_chunk_writes_exact [1, 2, 3] _ (by decide)⟩

/-- C5 counterexample: an immediate flush success does NOT complete the chunk.
On the empty chunk, the first capacity check succeeds, the flush request
returns `Ok`, yet the loop returns to the capacity check and suspends on the
next zero-capacity report: the outcome is `pending` (with the `flushing` flag
set), not a completed chunk. -/
theorem flush_ok_not_complete_counterexample :
    sendLoop [] 0 false
        [.toCheckWrite (.ok 1), .toFlush (.ok ()), .toCheckWrite (.ok 0)] =
      ([.checkWriteCall (.ok 1), .flushCall (.ok ()),
        .checkWriteCall (.ok 0), .subscribeCall], .pending 0 true) ∧
    Outcome.pending 0 true ≠ Outcome.ready (.ok ()) := by
  exact ⟨by decide, by decide⟩

/-- C5 (amended): once the offset equals the chunk length a flush request is
issued; a `Closed` result from flush completes the chunk and any other flush
error fails it, while a successful flush submission does not complete the
chunk — it marks the sink "flushing" and returns to the capacity check, where
zero capacity suspends exactly like write backpressure and a nonzero capacity
report while flushing completes the chunk. -/
theorem flush_request_behavior (chunk : List Nat) (k c : Nat)
    (rest : List Reply) :
    sendLoop chunk chunk.length false
        (Reply.toCheckWrite (.ok (k + 1)) :: Reply.toFlush (.error .closed) :: rest) =
      ([.checkWriteCall (.ok (k + 1)), .flushCall (.error .closed)],
       .ready (.ok ())) ∧
    sendLoop chunk chunk.length false
        (Reply.toCheckWrite (.ok (k + 1)) ::
          Reply.toFlush (.error (.lastOperationFailed c)) :: rest) =
      ([.checkWriteCall (.ok (k + 1)),
        .flushCall (.error (.lastOperationFailed c))],
       .ready (.error (.lastOperationFailed c))) ∧
    ((sendLoop chunk chunk.length false
        (Reply.toCheckWrite (.ok (k + 1)) :: Reply.toFlush (.ok ()) :: rest)).1 =
      Event.checkWriteCall (.ok (k + 1)) :: Event.flushCall (.ok ()) ::
        (sendLoop chunk chunk.length true rest).1 ∧
     (sendLoop chunk chunk.length false
        (Reply.toCheckWrite (.ok (k + 1)) :: Reply.toFlush (.ok ()) :: rest)).2 =
      (sendLoop chunk chunk.length true rest).2) ∧
    sendLoop chunk chunk.length true (Reply.toCheckWrite (.ok 0) :: rest) =
      ([.checkWriteCall (.ok 0), .subscribeCall], .pending chunk.length true) ∧
    sendLoop chunk chunk.length true (Reply.toCheckWrite (.ok (k + 1)) :: rest) =
      ([.checkWriteCall (.ok (k + 1))], .ready (.ok ())) := by
  refine ⟨sendLoop_end_flush_closed chunk k rest,
    sendLoop_end_flush_failed chunk k c rest, ?_,
    sendLoop_check_zero chunk chunk.length true rest,
    sendLoop_end_flushing chunk k rest⟩
  rw [sendLoop_end_flush_ok]
  exact ⟨rfl, rfl⟩

/-- C6: a `Closed` report from the capacity check completes the send
successfully when the offset already equals the chunk length, and fails the
send with the closed error when the offset is still short of the chunk
length. -/
theorem closed_during_send (chunk : List Nat) (offset : Nat) (flushing : Bool)
    (rest : List Reply) :
    (offset = chunk.length →
      sendLoop chunk offset flushing
          (Reply.toCheckWrite (.error .closed) :: rest) =
        ([.checkWriteCall (.error .closed)], .ready (.ok ()))) ∧
    (offset < chunk.length →
      sendLoop chunk offset flushing
          (Reply.toCheckWrite (.error .closed) :: rest) =
        ([.checkWriteCall (.error .closed)], .ready (.error .closed))) := by
  constructor
  · intro h
    subst h
    exact sendLoop_check_closed_end chunk flushing rest
  · intro h
    exact sendLoop_check_closed_early chunk offset flushing (Nat.ne_of_lt h) rest

/-- Witness for C6 on the chunk `[5]`: closed at offset 1 (all written) is
success, closed at offset 0 (bytes remaining) is failure. -/
theorem closed_during_send_witness :
    sendLoop [5] 1 false [.toCheckWrite (.error .closed)] =
      ([.checkWriteCall (.error .closed)], .ready (.ok ())) ∧
    sendLoop [5] 0 false [.toCheckWrite (.error .closed)] =
      ([.checkWriteCall (.error .closed)], .ready (.error .closed)) :=
  ⟨(closed_during_send [5] 1 false []).1 (by decide),
   (closed_during_send [5] 0 false []).2 (by decide)⟩

/-- C7 counterexample: the error element is not terminal at the adapter level.
After a read reports `LastOperationFailed`, the adapter's storage is
unchanged, so a consumer that keeps polling makes it issue another read; with
a host whose next read returns `Ok([1])`, a further element is produced after
the error element. -/
theorem error_element_not_terminal_counterexample :
    incomingRun [.lastOperationFailed 7, .ok [1]] =
      ([.err 7, .ok [1]], false) ∧
    (incomingRun [.lastOperationFailed 7, .ok [1]]).1 ≠ [Item.err 7] := by
  exact ⟨by decide, by decide⟩

/-- C7 (amended): a read reporting `LastOperationFailed` makes the stream
yield that error as an element, but the adapter does not itself stop reading:
a subsequent poll issues another read, and the sequence ends when a read
reports `Closed`.  In particular, when the host reports `Closed` right after
the failure (as WASI streams do), the produced sequence is the prior chunk
followed by exactly one error element and then termination, and nothing after
the `Closed` report is ever read. -/
theorem error_element_then_closed (e b : Nat) (bs : List Nat)
    (rest : List ReadResult) :
    incomingStep (.lastOperationFailed e) = .yieldItem (.err e) ∧
    incomingRun (.lastOperationFailed e :: .closed :: rest) = ([.err e], true) ∧
    incomingRun (.ok (b :: bs) :: .lastOperationFailed e :: .closed :: rest) =
      ([.ok (b :: bs), .err e], true) :=
  ⟨rfl, rfl, rfl⟩

/-- C8: the bridge submits the request at construction time — the stored
submission result is the handler's answer, and polling never re-invokes the
handler (the poll function does not even receive it).  A failed submission
resolves every poll immediately with that error and registers nothing; a
successful submission resolves as soon as the peek returns a result and
otherwise registers the response's readiness wait handle and suspends. -/
theorem send_bridge_eager_submit (handler : Request → Except ErrCode RespHandle)
    (request : Request) (get : RespHandle → Option (Except ErrCode Response)) :
    (outgoingRequestSend handler request).submission = handler request ∧
    (∀ e, handler request = .error e →
      sendFuturePoll (outgoingRequestSend handler request) get =
        .readyRes (.error e)) ∧
    (∀ h r, handler request = .ok h → get h = some r →
      sendFuturePoll (outgoingRequestSend handler request) get = .readyRes r) ∧
    (∀ h, handler request = .ok h → get h = none →
      sendFuturePoll (outgoingRequestSend handler request) get =
        .pendingSubscribed h) := by
  refine ⟨rfl, ?_, ?_, ?_⟩
  · intro e he
    simp [sendFuturePoll, outgoingRequestSend, he]
  · intro h r hh hg
    simp [sendFuturePoll, outgoingRequestSend, hh, hg]
  · intro h hh hg
    simp [sendFuturePoll, outgoingRequestSend, hh, hg]

/-- Witness for C8: a failing handler resolves with its error without
registering; a successful submission resolves on a present peek and registers
the handle on an absent one. -/
theorem send_bridge_eager_submit_witness :
    sendFuturePoll (outgoingRequestSend (fun _ => Except.error 3) 0)
      (fun _ => none) = .readyRes (.error 3) ∧
    sendFuturePoll (outgoingRequestSend (fun _ => Except.ok 5) 0)
      (fun _ => some (.ok 9)) = .readyRes (.ok 9) ∧
    sendFuturePoll (outgoingRequestSend (fun _ => Except.ok 5) 0)
      (fun _ => none) = .pendingSubscribed 5 :=
  ⟨(send_bridge_eager_submit (fun _ => Except.error 3) 0 (fun _ => none)).2.1
      3 rfl,
   (send_bridge_eager_submit (fun _ => Except.ok 5) 0
      (fun _ => some (.ok 9))).2.2.1 5 (.ok 9) rfl rfl,
   (send_bridge_eager_submit (fun _ => Except.ok 5) 0
      (fun _ => none)).2.2.2 5 rfl rfl⟩

/-- C9: a zero-length chunk issues no write call whatever the host script
does — the offset (0) equals the chunk length (0) from the start, so the
first nonzero capacity report goes directly to the flush branch, after which
the chunk completes through the flush steps alone. -/
theorem zero_length_chunk_no_write (flushing : Bool) (script : List Reply)
    (k : Nat) (rest : List Reply) :
    noWrites (sendLoop [] 0 flushing script).1 = true ∧
    (sendLoop [] 0 false
        (Reply.toCheckWrite (.ok (k + 1)) :: Reply.toFlush (.ok ()) :: rest)).1 =
      Event.checkWriteCall (.ok (k + 1)) :: Event.flushCall (.ok ()) ::
        (sendLoop [] 0 true rest).1 ∧
    sendLoop [] 0 false
        (Reply.toCheckWrite (.ok (k + 1)) :: Reply.toFlush (.error .closed) :: rest) =
      ([.checkWriteCall (.ok (k + 1)), .flushCall (.error .closed)],
       .ready (.ok ())) := by
  exact ⟨sendLoop_noWrites [] 0 flushing script rfl,
    congrArg Prod.fst (sendLoop_end_flush_ok [] k rest),
    sendLoop_end_flush_closed [] k rest⟩

/-- C10: every `Ok` element the incoming stream yields is non-empty: an empty
buffer from an open stream registers the readiness wait handle and suspends
instead of surfacing as an element, so all yielded `Ok` chunks contain at
least one byte, whatever the host script. -/
theorem incoming_ok_elements_nonempty (script : List ReadResult) :
    ((incomingRun script).1.all itemOkNonempty) = true ∧
    incomingStep (.ok []) = .pendingSubscribed :=
  ⟨incomingRun_all_nonempty script, rfl⟩


end SpinSdk
